import Mathlib

/-!
Shallow embedding of the ansible-hdfs_file repository:
  - library/hdfs_file.py        (the reconciliation engine: main, resolv_states, should_modify)
  - module_utils/HdfsUtils.py   (HdfsContextCli, HdfsContextLib, HdfsCheckMode)

The backend filesystem is modelled as the state of the single managed path
(`FsState`): the engine only ever queries and mutates `params["path"]`, so a
single-path state suffices for every property below.  The CLI transport
(`Popen` of `/bin/hdfs dfs -...`) is modelled as total operations on that
state; transport failures (non-zero subprocess exit for mutating commands)
are outside the model, except for `-stat`, whose failure branch the source
handles explicitly (HdfsUtils.py:140) and which is modelled faithfully.
-/

namespace HdfsFile

/-- Python `str()` applied to a value that is either a string or `None`:
`str(None) = "None"`, `str(s) = s`.  Used by `should_modify`
(hdfs_file.py:174), which compares `str(status[value]) == str(params[value])`. -/
def pyStrS : Option String → String
  | none => "None"
  | some s => s

/-- Python `str()` applied to a value that is either an integer (the parsed
replication factor, HdfsUtils.py:148) or `None`. -/
def pyStrN : Option Nat → String
  | none => "None"
  | some n => toString n

/-- Kind of an existing path, as reported by `hdfs dfs -stat %F`
("regular file" or "directory"). -/
inductive FKind
  | file
  | directory
  deriving DecidableEq, Repr

/-- Backend state of the managed path.  `mode` is write-only in the model:
`hdfs dfs -stat` cannot report permission bits (see the module DOCUMENTATION,
hdfs_file.py:43-44), so `stats` ignores it while `chmod` sets it. -/
inductive FsState
  | absent
  | present (kind : FKind) (owner group : String) (replication : Nat)
      (mode : Option String)
  deriving DecidableEq, Repr

/-- The state label `stats` would report for a backend state. -/
def fsKind : FsState → String
  | .absent => "absent"
  | .present .file _ _ _ _ => "file"
  | .present .directory _ _ _ _ => "directory"

/-- The status dict built by `HdfsContextCli.stats` (HdfsUtils.py:131-149). -/
structure Status where
  state : String
  owner : Option String
  group : Option String
  replication : Option Nat
  deriving DecidableEq, Repr

/-- The module parameters consumed by `main` (hdfs_file.py:122-138):
optional attributes default to `None`; `state` defaults to `"file"`.
`replication` is modelled at its intended integer type (spec data model);
`method` is omitted: every claim below concerns the `command` context. -/
structure Spec where
  path : String
  state : String
  owner : Option String
  group : Option String
  mode : Option String
  replication : Option Nat
  recurse : Option Bool
  deriving DecidableEq, Repr

/-- One line of `hdfs dfs -stat "%F[SEP]%u[SEP]%g[SEP]%r"` output
(HdfsUtils.py:137), modelled with the four `[SEP]`-delimited fields already
split; the `%r` field is a decimal numeral, modelled by its numeric value. -/
structure RawStat where
  f : String
  u : String
  g : String
  r : Nat
  deriving DecidableEq, Repr

/-- `%F` prints "regular file" for files and "directory" for directories. -/
def fkindF : FKind → String
  | .file => "regular file"
  | .directory => "directory"

/-- The `-stat` subprocess result: `none` models a non-zero exit status
(path missing), `some raw` a successful four-field response. -/
def statQuery : FsState → Option RawStat
  | .absent => none
  | .present k o g r _ => some ⟨fkindF k, o, g, r⟩

/-- `HdfsContextCli.stats` (HdfsUtils.py:126-149): start from the all-absent
dict (lines 131-136); on subprocess failure return it unchanged (line 140-141);
otherwise fill the four fields in order, normalize "regular file" to "file"
(lines 146-147) and coerce replication to an integer (line 148). -/
def statsF (s : FsState) : Status :=
  match statQuery s with
  | none => ⟨"absent", none, none, none⟩
  | some raw =>
      ⟨if raw.f = "regular file" then "file" else raw.f,
       some raw.u, some raw.g, some raw.r⟩

/-- Ambient defaults the backend uses for a freshly created file/directory
(owner/group of the creating user, cluster default replication). -/
structure Env where
  defaultOwner : String
  defaultGroup : String
  defaultReplication : Nat
  deriving Repr

/-- The FilesystemOps capability: one field per public method of
`HdfsContextCli`, each taking the target path first, generic in the backend
state representation so that the same engine runs real, traced, or
neutralized (check-mode) operations. -/
structure Ops (σ : Type) where
  stats : String → σ → Status
  mkdir : String → Bool → σ → σ
  touch : String → σ → σ
  remove : String → Bool → σ → σ
  chown : String → Option String → Option String → Option Bool → σ → σ
  setrep : String → Nat → σ → σ
  chmod : String → String → Option Bool → σ → σ

/-- Real backend semantics of the CLI primitives on the single-path state.
`chown` sets whichever of owner/group is provided: this is the effect of the
`-chown` command for the argument shapes the engine issues (exactly one of
the two set per call, hdfs_file.py:202 and 206); the literal target-string
construction of `HdfsContextCli.chown`, with its precedence quirk, is
modelled separately by `chownTarget` below. -/
def realOps (env : Env) : Ops FsState where
  stats := fun _ s => statsF s
  mkdir := fun _ _ s =>
    match s with
    | .absent => .present .directory env.defaultOwner env.defaultGroup
        env.defaultReplication none
    | p => p
  touch := fun _ s =>
    match s with
    | .absent => .present .file env.defaultOwner env.defaultGroup
        env.defaultReplication none
    | p => p
  remove := fun _ _ _ => .absent
  chown := fun _ ow gr _ s =>
    match s with
    | .absent => .absent
    | .present k o g r m => .present k (ow.getD o) (gr.getD g) r m
  setrep := fun _ f s =>
    match s with
    | .absent => .absent
    | .present k o g _ m => .present k o g f m
  chmod := fun _ mo _ s =>
    match s with
    | .absent => .absent
    | .present k o g r _ => .present k o g r (some mo)

/-- A mutating backend invocation, recorded with the arguments the engine
passed (the trace of subprocess commands a run would issue). -/
inductive Call
  | mkdir (path : String) (parent : Bool)
  | touch (path : String)
  | remove (path : String) (recurse : Bool)
  | chown (path : String) (owner group : Option String) (recurse : Option Bool)
  | setrep (path : String) (factor : Nat)
  | chmod (path : String) (mode : String) (recurse : Option Bool)
  deriving DecidableEq, Repr

/-- Is this call one of the attribute operations (owner/group, replication,
mode), as opposed to a state transition operation? -/
def Call.isAttr : Call → Bool
  | .chown _ _ _ _ => true
  | .setrep _ _ => true
  | .chmod _ _ _ => true
  | _ => false

/-- Is this call a chown? -/
def Call.isChown : Call → Bool
  | .chown _ _ _ _ => true
  | _ => false

/-- Instrument a backend with a call trace: queries delegate, every mutating
primitive delegates and appends its record. -/
def traceOps (base : Ops FsState) : Ops (FsState × List Call) where
  stats := fun p x => base.stats p x.1
  mkdir := fun p parent x => (base.mkdir p parent x.1, x.2 ++ [.mkdir p parent])
  touch := fun p x => (base.touch p x.1, x.2 ++ [.touch p])
  remove := fun p rec x => (base.remove p rec x.1, x.2 ++ [.remove p rec])
  chown := fun p ow gr rec x =>
    (base.chown p ow gr rec x.1, x.2 ++ [.chown p ow gr rec])
  setrep := fun p f x => (base.setrep p f x.1, x.2 ++ [.setrep p f])
  chmod := fun p mo rec x => (base.chmod p mo rec x.1, x.2 ++ [.chmod p mo rec])

/-- Errors surfaced by a run: `failJson` models `module.fail_json`,
`typeError` an uncaught Python `TypeError`. -/
inductive RErr
  | failJson (msg : String)
  | typeError (msg : String)
  deriving DecidableEq, Repr

/-- `should_modify(status, params, value)` (hdfs_file.py:169-176).
`statusVal` is `str(status[value])` (already rendered, since the status
fields have different carrier types in the model), `param` is
`params[value]` (`none` = parameter not provided), `state` is
`params["state"]`. -/
def should_modify (statusVal : String) (param : Option String)
    (state : String) : Bool :=
  match param with
  | none => false
  | some v =>
      if state = "touch" then true
      else if statusVal = v then false
      else true

/-- `resolv_states` (hdfs_file.py:148-166).  `module.fail_json` is modelled
as `.error (.failJson msg)`.  The `try/except HdfsUtilsError` wrapper
disappears because the modelled primitives are total. -/
def resolv_states {σ : Type} (spec : Spec) (ops : Ops σ) (status : Status)
    (s : σ) : Except RErr σ :=
  let old := status.state
  let new := spec.state
  if old = "absent" ∧ new = "file" then
    .error (.failJson
      "no such file, to create new file use state 'touch' instead of 'file'")
  else if old = "absent" ∧ new = "directory" then
    .ok (ops.mkdir spec.path true s)
  else if new = "touch" ∧ (old = "absent" ∨ old = "file") then
    .ok (ops.touch spec.path s)
  else if new = "absent" ∧ old = "file" then
    .ok (ops.remove spec.path false s)
  else if new = "absent" ∧ old = "directory" then
    .ok (ops.remove spec.path true s)
  else
    .error (.failJson
      ("unsupported state convert '" ++ old ++ "' -> '" ++ new ++ "'"))

/-- The OWNER block of `main` (hdfs_file.py:200-202). -/
def ownerStep {σ : Type} (spec : Spec) (ops : Ops σ) (status : Status) :
    Bool × σ → Bool × σ
  | (changed, s) =>
    if should_modify (pyStrS status.owner) spec.owner spec.state then
      (true, ops.chown spec.path spec.owner none spec.recurse s)
    else (changed, s)

/-- The GROUP block of `main` (hdfs_file.py:204-206). -/
def groupStep {σ : Type} (spec : Spec) (ops : Ops σ) (status : Status) :
    Bool × σ → Bool × σ
  | (changed, s) =>
    if should_modify (pyStrS status.group) spec.group spec.state then
      (true, ops.chown spec.path none spec.group spec.recurse s)
    else (changed, s)

/-- The REPLICATION block of `main` (hdfs_file.py:208-210). -/
def replStep {σ : Type} (spec : Spec) (ops : Ops σ) (status : Status) :
    Bool × σ → Bool × σ
  | (changed, s) =>
    match spec.replication with
    | some r =>
        if should_modify (pyStrN status.replication) (some (toString r))
            spec.state then
          (true, ops.setrep spec.path r s)
        else (changed, s)
    | none => (changed, s)

/-- The MODE block of `main` (hdfs_file.py:212-214): applied unconditionally
whenever the parameter is set, with no comparison against current mode. -/
def modeStep {σ : Type} (spec : Spec) (ops : Ops σ) :
    Bool × σ → Bool × σ
  | (changed, s) =>
    match spec.mode with
    | some m => (true, ops.chmod spec.path m spec.recurse s)
    | none => (changed, s)

/-- The attribute-reconciliation phase of `main` (hdfs_file.py:199-214), in
source order: owner, group, replication, mode.  `status` is the status
captured at line 192, before any state transition. -/
def attrPhase {σ : Type} (spec : Spec) (ops : Ops σ) (status : Status)
    (cs : Bool × σ) : Bool × σ :=
  modeStep spec ops
    (replStep spec ops status
      (groupStep spec ops status
        (ownerStep spec ops status cs)))

/-- The reconciliation logic of `main` (hdfs_file.py:192-216): query status
once, run the state transition when the observed state differs from the
requested one, exit early for `state=absent`, then reconcile attributes
against the pre-transition status.  `module.exit_json(changed=...)` is
modelled as returning `.ok (changed, finalState)`. -/
def reconcile {σ : Type} (spec : Spec) (ops : Ops σ) (s0 : σ) :
    Except RErr (Bool × σ) :=
  let status := ops.stats spec.path s0
  match (if status.state ≠ spec.state then
           (resolv_states spec ops status s0).map (fun s => (true, s))
         else .ok (false, s0)) with
  | .error e => .error e
  | .ok cs =>
      if spec.state = "absent" then .ok cs
      else .ok (attrPhase spec ops status cs)

/-- A traced real run: `reconcile` against the real backend instrumented
with a call trace, starting from an empty trace. -/
def reconcileT (spec : Spec) (env : Env) (s0 : FsState) :
    Except RErr (Bool × FsState × List Call) :=
  reconcile spec (traceOps (realOps env)) (s0, [])

/-- The method-slot replacement performed by `HdfsCheckMode.__init__`
(HdfsUtils.py:202-224): each mutating method of the wrapped instance becomes
a no-op that reports success; `stats` is left untouched. -/
def neutralize {σ : Type} (inst : Ops σ) : Ops σ where
  stats := inst.stats
  mkdir := fun _ _ s => s
  touch := fun _ s => s
  remove := fun _ _ s => s
  chown := fun _ _ _ _ s => s
  setrep := fun _ _ s => s
  chmod := fun _ _ _ s => s

/-- The body of `HdfsCheckMode.__init__` (HdfsUtils.py:198-226): mutate the
wrapped instance's method slots to no-ops, then `return (inst)`.  The result
pairs the mutated instance with the value the body returns (`some` = a
non-None Python return value, from line 226). -/
def hdfsCheckModeInitBody {σ : Type} (inst : Ops σ) :
    Ops σ × Option (Ops σ) :=
  let inst := neutralize inst
  (inst, some inst)

/-- Python's constructor protocol for `HdfsCheckMode(inst)`
(hdfs_file.py:190): run `__init__`; if its body returns a value other than
`None`, object construction raises
`TypeError: __init__() should return None`.  The `.ok` branch (which would
yield the freshly constructed wrapper object) is unreachable because the
body always returns the instance. -/
def hdfsCheckModeCall {σ : Type} (inst : Ops σ) : Except RErr (Ops σ) :=
  match (hdfsCheckModeInitBody inst).2 with
  | some _ => .error (.typeError "__init__() should return None")
  | none => .ok (hdfsCheckModeInitBody inst).1

/-- `main` for `method="command"` (hdfs_file.py:184-216): build the CLI
context, wrap it with `HdfsCheckMode` when check mode is on (lines 189-190),
then run the reconciliation. -/
def mainRun {σ : Type} (spec : Spec) (checkMode : Bool) (ops : Ops σ)
    (s0 : σ) : Except RErr (Bool × σ) :=
  match (if checkMode then hdfsCheckModeCall ops else .ok ops) with
  | .error e => .error e
  | .ok ctx => reconcile spec ctx s0

/-- Python truthiness of an optional string: `None` and `""` are falsy. -/
def pyTruthyS : Option String → Bool
  | none => false
  | some s => !(s = "")

/-- The `target` expression of `HdfsContextCli.chown` (HdfsUtils.py:73):
`target = owner if owner else "" + ":" + group if group else ""`.
By Python conditional-expression precedence this parses as
`owner if owner else ((("" + ":") + group) if group else "")`. -/
def chownTarget (owner group : Option String) : String :=
  if pyTruthyS owner then owner.getD ""
  else if pyTruthyS group then "" ++ ":" ++ group.getD ""
  else ""

/-- The argv list built by `HdfsContextCli.chown` (HdfsUtils.py:74-76):
`[cmd, "dfs", "-chown", target, path]`, with `"-R"` inserted at index 3
when `recurse` is truthy. -/
def chownCmd (cmd path : String) (owner group : Option String)
    (recurse : Option Bool) : List String :=
  let argv := [cmd, "dfs", "-chown", chownTarget owner group, path]
  if recurse.getD false then
    argv.take 3 ++ ["-R"] ++ argv.drop 3
  else argv

/-- A top-level Python statement, as far as module import is concerned: a
class definition whose body either binds the name or raises at
class-definition time. -/
inductive PyTop
  | classDef (name : String) (bodyRaises : Option String)
  deriving DecidableEq, Repr

/-- Evaluate top-level statements in order: a class body that raises aborts
module evaluation with that exception; otherwise the name is bound and
evaluation continues. -/
def runTop : List PyTop → List String → Except String (List String)
  | [], env => .ok env
  | .classDef n none :: rest, env => runTop rest (env ++ [n])
  | .classDef _ (some exc) :: _, _ => .error exc

/-- The top-level statements of module_utils/HdfsUtils.py in file order
(imports and docstring expressions omitted: they bind no class and raise
nothing): `HdfsUtilsError` (line 17), `HdfsContextCli` (line 44),
`HdfsContextLib` (line 182) — whose entire class body is the bare statement
`raise NotImplementedError()` (line 183), executed at class-definition time —
and `HdfsCheckMode` (line 196). -/
def hdfsUtilsTopLevel : List PyTop :=
  [.classDef "HdfsUtilsError" none,
   .classDef "HdfsContextCli" none,
   .classDef "HdfsContextLib" (some "NotImplementedError"),
   .classDef "HdfsCheckMode" none]

/-- Importing module_utils/HdfsUtils.py: evaluate its top level in an empty
namespace; the importer receives the bound names, or the exception the
module body raised. -/
def hdfsUtilsImport : Except String (List String) :=
  runTop hdfsUtilsTopLevel []

/-! ## Helper lemmas -/

theorem statsF_state (s : FsState) : (statsF s).state = fsKind s := by
  cases s with
  | absent => rfl
  | present k o g r m => cases k <;> rfl

theorem fsKind_statsF_ne_touch (s : FsState) : (statsF s).state ≠ "touch" := by
  rw [statsF_state]
  cases s with
  | absent => simp [fsKind]
  | present k o g r m => cases k <;> simp [fsKind]

/-- Every character placed by `Nat.toDigitsCore` beyond the accumulator is a
digit character of a remainder below the base. -/
theorem mem_toDigitsCore (b f : Nat) (hb : 0 < b) : ∀ (n : Nat) (acc : List Char)
    (c : Char), c ∈ Nat.toDigitsCore b f n acc →
      c ∈ acc ∨ ∃ k, k < b ∧ c = Nat.digitChar k := by
  induction f with
  | zero => intro n acc c h; exact .inl h
  | succ f ih =>
    intro n acc c h
    simp only [Nat.toDigitsCore] at h
    by_cases hnb : n / b = 0
    · rw [if_pos hnb] at h
      rcases List.mem_cons.mp h with h1 | h2
      · exact .inr ⟨n % b, Nat.mod_lt _ hb, h1⟩
      · exact .inl h2
    · rw [if_neg hnb] at h
      rcases ih (n / b) (Nat.digitChar (n % b) :: acc) c h with h1 | h2
      · rcases List.mem_cons.mp h1 with h3 | h4
        · exact .inr ⟨n % b, Nat.mod_lt _ hb, h3⟩
        · exact .inl h4
      · exact .inr h2

/-- The decimal rendering of a natural number is never the string "None"
(so `str(replication)` of a populated status never collides with
`str(None)`). -/
theorem natToString_ne_None (n : Nat) : toString n ≠ "None" := by
  intro h
  have hdata : Nat.toDigits 10 n = ['N', 'o', 'n', 'e'] :=
    congrArg String.data h
  have hmem : 'N' ∈ Nat.toDigits 10 n := by rw [hdata]; exact List.mem_cons_self _ _
  rcases mem_toDigitsCore 10 (n + 1) (by decide) n [] 'N' hmem with h1 | ⟨k, hk, hc⟩
  · exact absurd h1 (List.not_mem_nil _)
  · interval_cases k <;> exact absurd hc (by decide)

theorem ownerStep_real (spec : Spec) (env : Env) (st : Status) (c : Bool)
    (k : FKind) (o g : String) (r : Nat) (m : Option String) (tr : List Call) :
    ownerStep spec (traceOps (realOps env)) st (c, (.present k o g r m, tr)) =
      ((if should_modify (pyStrS st.owner) spec.owner spec.state then true
        else c),
       (.present k
          (if should_modify (pyStrS st.owner) spec.owner spec.state then
             spec.owner.getD o else o) g r m,
        tr ++ (if should_modify (pyStrS st.owner) spec.owner spec.state then
          [Call.chown spec.path spec.owner none spec.recurse] else []))) := by
  by_cases hO : should_modify (pyStrS st.owner) spec.owner spec.state <;>
    simp [ownerStep, traceOps, realOps, hO]

theorem groupStep_real (spec : Spec) (env : Env) (st : Status) (c : Bool)
    (k : FKind) (o g : String) (r : Nat) (m : Option String) (tr : List Call) :
    groupStep spec (traceOps (realOps env)) st (c, (.present k o g r m, tr)) =
      ((if should_modify (pyStrS st.group) spec.group spec.state then true
        else c),
       (.present k o
          (if should_modify (pyStrS st.group) spec.group spec.state then
             spec.group.getD g else g) r m,
        tr ++ (if should_modify (pyStrS st.group) spec.group spec.state then
          [Call.chown spec.path none spec.group spec.recurse] else []))) := by
  by_cases hG : should_modify (pyStrS st.group) spec.group spec.state <;>
    simp [groupStep, traceOps, realOps, hG]

theorem replStep_real (spec : Spec) (env : Env) (st : Status) (c : Bool)
    (k : FKind) (o g : String) (r : Nat) (m : Option String) (tr : List Call) :
    replStep spec (traceOps (realOps env)) st (c, (.present k o g r m, tr)) =
      ((if should_modify (pyStrN st.replication)
            (spec.replication.map (fun n => toString n)) spec.state then true
        else c),
       (.present k o g
          (if should_modify (pyStrN st.replication)
               (spec.replication.map (fun n => toString n)) spec.state then
             spec.replication.getD r else r) m,
        tr ++ (if should_modify (pyStrN st.replication)
                   (spec.replication.map (fun n => toString n)) spec.state then
          [Call.setrep spec.path (spec.replication.getD 0)] else []))) := by
  rcases hrep : spec.replication with _ | rv
  · simp [replStep, hrep, should_modify]
  · by_cases hR : should_modify (pyStrN st.replication) (some (toString rv))
      spec.state
    · simp [replStep, hrep, traceOps, realOps, hR]
    · simp [replStep, hrep, hR]

theorem modeStep_real (spec : Spec) (env : Env) (c : Bool)
    (k : FKind) (o g : String) (r : Nat) (m : Option String) (tr : List Call) :
    modeStep spec (traceOps (realOps env)) (c, (.present k o g r m, tr)) =
      ((match spec.mode with | some _ => true | none => c),
       (.present k o g r
          (match spec.mode with | some mo => some mo | none => m),
        tr ++ (match spec.mode with
               | some mo => [Call.chmod spec.path mo spec.recurse]
               | none => []))) := by
  rcases hmo : spec.mode with _ | mv <;> simp [modeStep, hmo, traceOps, realOps]

/-- Explicit form of the attribute phase against the traced real backend on a
present path: which calls run, the resulting fields, and the final changed
flag. -/
theorem attrPhase_real (spec : Spec) (env : Env) (st : Status) (c : Bool)
    (k : FKind) (o g : String) (r : Nat) (m : Option String) (tr : List Call) :
    attrPhase spec (traceOps (realOps env)) st (c, (.present k o g r m, tr)) =
      ((match spec.mode with
        | some _ => true
        | none => c || should_modify (pyStrS st.owner) spec.owner spec.state
            || should_modify (pyStrS st.group) spec.group spec.state
            || should_modify (pyStrN st.replication)
                 (spec.replication.map (fun n => toString n)) spec.state),
       (FsState.present k
          (if should_modify (pyStrS st.owner) spec.owner spec.state then
             spec.owner.getD o else o)
          (if should_modify (pyStrS st.group) spec.group spec.state then
             spec.group.getD g else g)
          (if should_modify (pyStrN st.replication)
               (spec.replication.map (fun n => toString n)) spec.state then
             spec.replication.getD r else r)
          (match spec.mode with | some mo => some mo | none => m),
        tr ++ (if should_modify (pyStrS st.owner) spec.owner spec.state then
                 [Call.chown spec.path spec.owner none spec.recurse] else [])
           ++ (if should_modify (pyStrS st.group) spec.group spec.state then
                 [Call.chown spec.path none spec.group spec.recurse] else [])
           ++ (if should_modify (pyStrN st.replication)
                   (spec.replication.map (fun n => toString n)) spec.state then
                 [Call.setrep spec.path (spec.replication.getD 0)] else [])
           ++ (match spec.mode with
               | some mo => [Call.chmod spec.path mo spec.recurse]
               | none => []))) := by
  have hb : ∀ (c bO bG bR : Bool),
      (if bR then true else if bG then true else if bO then true else c) =
        (c || bO || bG || bR) := by decide
  rw [attrPhase, ownerStep_real, groupStep_real, replStep_real, modeStep_real,
    hb]

theorem tOps_stats (env : Env) (p : String) (x : FsState × List Call) :
    (traceOps (realOps env)).stats p x = statsF x.1 := rfl

theorem state_absent_inv (s : FsState) (h : (statsF s).state = "absent") :
    s = .absent := by
  cases s with
  | absent => rfl
  | present k o g r m => cases k <;> simp [statsF, statQuery, fkindF] at h

theorem state_file_inv (s : FsState) (h : (statsF s).state = "file") :
    ∃ o g r m, s = .present .file o g r m := by
  cases s with
  | absent => simp [statsF, statQuery] at h
  | present k o g r m =>
      cases k
      · exact ⟨o, g, r, m, rfl⟩
      · simp [statsF, statQuery, fkindF] at h

theorem state_directory_inv (s : FsState)
    (h : (statsF s).state = "directory") :
    ∃ o g r m, s = .present .directory o g r m := by
  cases s with
  | absent => simp [statsF, statQuery] at h
  | present k o g r m =>
      cases k
      · simp [statsF, statQuery, fkindF] at h
      · exact ⟨o, g, r, m, rfl⟩

theorem reconcileT_no_trans (env : Env) (spec : Spec) (s0 : FsState)
    (h : (statsF s0).state = spec.state) (habs : spec.state ≠ "absent") :
    reconcileT spec env s0 =
      .ok (attrPhase spec (traceOps (realOps env)) (statsF s0)
        (false, (s0, []))) := by
  simp [reconcileT, reconcile, tOps_stats, h, habs]

theorem reconcileT_no_trans_absent (env : Env) (spec : Spec) (s0 : FsState)
    (h : (statsF s0).state = spec.state) (habs : spec.state = "absent") :
    reconcileT spec env s0 = .ok (false, (s0, [])) := by
  simp [reconcileT, reconcile, tOps_stats, h, habs]

theorem reconcileT_trans_ok (env : Env) (spec : Spec) (s0 s1' : FsState)
    (tr' : List Call) (h : (statsF s0).state ≠ spec.state)
    (hres : resolv_states spec (traceOps (realOps env)) (statsF s0) (s0, []) =
      .ok (s1', tr'))
    (habs : spec.state ≠ "absent") :
    reconcileT spec env s0 =
      .ok (attrPhase spec (traceOps (realOps env)) (statsF s0)
        (true, (s1', tr'))) := by
  simp [reconcileT, reconcile, tOps_stats, h, hres, habs, Except.map]

theorem reconcileT_trans_ok_absent (env : Env) (spec : Spec)
    (s0 s1' : FsState) (tr' : List Call)
    (h : (statsF s0).state ≠ spec.state)
    (hres : resolv_states spec (traceOps (realOps env)) (statsF s0) (s0, []) =
      .ok (s1', tr'))
    (habs : spec.state = "absent") :
    reconcileT spec env s0 = .ok (true, (s1', tr')) := by
  have h2 : (statsF s0).state ≠ "absent" := by rw [habs] at h; exact h
  simp [reconcileT, reconcile, tOps_stats, h, h2, hres, habs, Except.map]

theorem reconcileT_trans_err (env : Env) (spec : Spec) (s0 : FsState)
    (e : RErr) (h : (statsF s0).state ≠ spec.state)
    (hres : resolv_states spec (traceOps (realOps env)) (statsF s0) (s0, []) =
      .error e) :
    reconcileT spec env s0 = .error e := by
  simp [reconcileT, reconcile, tOps_stats, h, hres, Except.map]

/-- Inversion of a successful state transition: which branch ran and what it
did. -/
theorem resolv_states_ok_inv {σ : Type} (spec : Spec) (ops : Ops σ)
    (status : Status) (s : σ) (s1 : σ)
    (h : resolv_states spec ops status s = .ok s1) :
    (status.state = "absent" ∧ spec.state = "directory" ∧
      s1 = ops.mkdir spec.path true s) ∨
    (spec.state = "touch" ∧ (status.state = "absent" ∨ status.state = "file") ∧
      s1 = ops.touch spec.path s) ∨
    (spec.state = "absent" ∧ status.state = "file" ∧
      s1 = ops.remove spec.path false s) ∨
    (spec.state = "absent" ∧ status.state = "directory" ∧
      s1 = ops.remove spec.path true s) := by
  simp only [resolv_states] at h
  split_ifs at h with a b cc d e
  · exact .inl ⟨b.1, b.2, (Except.ok.inj h).symm⟩
  · exact .inr (.inl ⟨cc.1, cc.2, (Except.ok.inj h).symm⟩)
  · exact .inr (.inr (.inl ⟨d.1, d.2, (Except.ok.inj h).symm⟩))
  · exact .inr (.inr (.inr ⟨e.1, e.2, (Except.ok.inj h).symm⟩))

theorem statsF_owner (k : FKind) (o g : String) (r : Nat) (m : Option String) :
    (statsF (.present k o g r m)).owner = some o := by cases k <;> rfl

theorem statsF_group (k : FKind) (o g : String) (r : Nat) (m : Option String) :
    (statsF (.present k o g r m)).group = some g := by cases k <;> rfl

theorem statsF_repl (k : FKind) (o g : String) (r : Nat) (m : Option String) :
    (statsF (.present k o g r m)).replication = some r := by cases k <;> rfl

theorem should_modify_eq_false (sv v st : String) (hst : st ≠ "touch")
    (he : sv = v) : should_modify sv (some v) st = false := by
  simp [should_modify, hst, he]

theorem should_modify_ne_true (sv v st : String) (hst : st ≠ "touch")
    (hne : sv ≠ v) : should_modify sv (some v) st = true := by
  simp [should_modify, hst, hne]

theorem should_modify_false_elim (sv v st : String) (hst : st ≠ "touch")
    (hf : should_modify sv (some v) st = false) : sv = v := by
  by_cases hv : sv = v
  · exact hv
  · simp [should_modify, hst, hv] at hf

/-- A run whose pre-state already satisfies every requested attribute (and
has no mode request) performs nothing and reports changed=false. -/
theorem reconcileT_settled (env : Env) (spec : Spec) (k : FKind)
    (o g : String) (r : Nat) (m : Option String)
    (hstate2 : (statsF (.present k o g r m)).state = spec.state)
    (habs : spec.state ≠ "absent") (hmode : spec.mode = none)
    (hO : should_modify (pyStrS (some o)) spec.owner spec.state = false)
    (hG : should_modify (pyStrS (some g)) spec.group spec.state = false)
    (hR : should_modify (pyStrN (some r))
      (spec.replication.map (fun n => toString n)) spec.state = false) :
    reconcileT spec env (.present k o g r m) =
      .ok (false, (.present k o g r m, [])) := by
  rw [reconcileT_no_trans env spec _ hstate2 habs, attrPhase_real,
    statsF_owner, statsF_group, statsF_repl, hO, hG, hR, hmode]
  simp

/-- After the attribute phase, a string attribute (owner/group) compares
equal to its requested value: either it was just applied, or the comparison
already matched and the field is unchanged.  The absent-status case needs
the requested value not to be the literal "None". -/
theorem settled_field_s (st : Option String) (param : Option String)
    (state : String) (old : String) (htouch : state ≠ "touch")
    (hgood : st = some old ∨ (st = none ∧ param ≠ some "None")) :
    should_modify
      (pyStrS (some (if should_modify (pyStrS st) param state then
        param.getD old else old))) param state = false := by
  rcases param with _ | v
  · rfl
  · rcases hgood with rfl | ⟨rfl, hN⟩
    · by_cases hb : should_modify (pyStrS (some old)) (some v) state = true
      · rw [if_pos hb]
        exact should_modify_eq_false _ _ _ htouch rfl
      · rw [if_neg hb]
        exact Bool.not_eq_true _ |>.mp hb
    · have hv : v ≠ "None" := fun hh => hN (by rw [hh])
      have hb : should_modify (pyStrS none) (some v) state = true :=
        should_modify_ne_true _ _ _ htouch (fun hh => hv hh.symm)
      rw [if_pos hb]
      exact should_modify_eq_false _ _ _ htouch rfl

/-- Numeric analogue of `settled_field_s` for the replication factor; the
absent-status case is unconditional because a decimal numeral never renders
as "None". -/
theorem settled_field_n (st : Option Nat) (param : Option Nat)
    (state : String) (old : Nat) (htouch : state ≠ "touch")
    (hgood : st = some old ∨ st = none) :
    should_modify
      (pyStrN (some (if should_modify (pyStrN st)
          (param.map (fun n => toString n)) state then
        param.getD old else old)))
      (param.map (fun n => toString n)) state = false := by
  rcases param with _ | rv
  · rfl
  · rcases hgood with rfl | rfl
    · by_cases hb : should_modify (pyStrN (some old))
          (Option.map (fun n => toString n) (some rv)) state = true
      · rw [if_pos hb]
        exact should_modify_eq_false _ _ _ htouch rfl
      · rw [if_neg hb]
        exact Bool.not_eq_true _ |>.mp hb
    · have hb : should_modify (pyStrN none)
          (Option.map (fun n => toString n) (some rv)) state = true :=
        should_modify_ne_true _ _ _ htouch
          (fun hh => natToString_ne_None rv hh.symm)
      rw [if_pos hb]
      exact should_modify_eq_false _ _ _ htouch rfl

theorem statsF_state_kind (k : FKind) (o g : String) (r : Nat)
    (m : Option String) (o2 g2 : String) (r2 : Nat) (m2 : Option String) :
    (statsF (.present k o g r m)).state =
      (statsF (.present k o2 g2 r2 m2)).state := by
  cases k <;> rfl

/-- Master inversion of a successful run with `state ≠ absent`: the run is
the attribute phase applied, with the pre-transition status, to a present
path obtained from the (possibly trivial) state transition; the resulting
kind agrees with the requested state (touch yields a file); and the status
used for the attribute comparisons either carries exactly the fields of
that present path (no creation happened) or is the all-absent record (the
transition just created the path). -/
theorem run_ok_master (env : Env) (spec : Spec) (s0 : FsState) (c : Bool)
    (s1 : FsState) (tr : List Call) (hstate : spec.state ≠ "absent")
    (hrun : reconcileT spec env s0 = .ok (c, (s1, tr))) :
    ∃ (chg0 : Bool) (k1 : FKind) (o1 g1 : String) (r1 : Nat)
      (m1 : Option String) (tr0 : List Call),
      attrPhase spec (traceOps (realOps env)) (statsF s0)
        (chg0, (.present k1 o1 g1 r1 m1, tr0)) = (c, (s1, tr)) ∧
      ((statsF (.present k1 o1 g1 r1 m1)).state = spec.state ∨
        (spec.state = "touch" ∧ k1 = .file)) ∧
      (((statsF s0).owner = some o1 ∧ (statsF s0).group = some g1 ∧
          (statsF s0).replication = some r1) ∨
        statsF s0 = ⟨"absent", none, none, none⟩) := by
  by_cases h : (statsF s0).state = spec.state
  · obtain ⟨k, o0, g0, r0, m0, rfl⟩ :
        ∃ k o0 g0 r0 m0, s0 = FsState.present k o0 g0 r0 m0 := by
      cases s0 with
      | absent => exact absurd h.symm hstate
      | present k o0 g0 r0 m0 => exact ⟨k, o0, g0, r0, m0, rfl⟩
    rw [reconcileT_no_trans env spec _ h hstate] at hrun
    exact ⟨false, k, o0, g0, r0, m0, [], Except.ok.inj hrun, .inl h,
      .inl ⟨statsF_owner k o0 g0 r0 m0, statsF_group k o0 g0 r0 m0,
        statsF_repl k o0 g0 r0 m0⟩⟩
  · rcases hres : resolv_states spec (traceOps (realOps env)) (statsF s0)
        (s0, []) with e | ⟨s1', tr'⟩
    · rw [reconcileT_trans_err env spec s0 e h hres] at hrun
      exact absurd hrun (by simp)
    · rw [reconcileT_trans_ok env spec s0 s1' tr' h hres hstate] at hrun
      rcases resolv_states_ok_inv _ _ _ _ _ hres with
        ⟨ha, hd, hmk⟩ | ⟨ht, hor, htc⟩ | ⟨ha2, _, _⟩ | ⟨ha2, _, _⟩
      · obtain rfl := state_absent_inv s0 ha
        simp only [traceOps, realOps, List.nil_append] at hmk
        obtain ⟨hs1', htr'⟩ := Prod.mk.injEq .. |>.mp hmk
        subst hs1'; subst htr'
        refine ⟨true, .directory, env.defaultOwner, env.defaultGroup,
          env.defaultReplication, none, [.mkdir spec.path true],
          Except.ok.inj hrun, .inl ?_, .inr rfl⟩
        rw [hd]; rfl
      · rcases hor with hor | hor
        · obtain rfl := state_absent_inv s0 hor
          simp only [traceOps, realOps, List.nil_append] at htc
          obtain ⟨hs1', htr'⟩ := Prod.mk.injEq .. |>.mp htc
          subst hs1'; subst htr'
          exact ⟨true, .file, env.defaultOwner, env.defaultGroup,
            env.defaultReplication, none, [.touch spec.path],
            Except.ok.inj hrun, .inr ⟨ht, rfl⟩, .inr rfl⟩
        · obtain ⟨o0, g0, r0, m0, rfl⟩ := state_file_inv s0 hor
          simp only [traceOps, realOps, List.nil_append] at htc
          obtain ⟨hs1', htr'⟩ := Prod.mk.injEq .. |>.mp htc
          subst hs1'; subst htr'
          exact ⟨true, .file, o0, g0, r0, m0, [.touch spec.path],
            Except.ok.inj hrun, .inr ⟨ht, rfl⟩,
            .inl ⟨statsF_owner .file o0 g0 r0 m0,
              statsF_group .file o0 g0 r0 m0, statsF_repl .file o0 g0 r0 m0⟩⟩
      · exact absurd ha2 hstate
      · exact absurd ha2 hstate

/-- A run with `mode` set against a present path whose kind already agrees
with the requested state (or with state=touch on a file) succeeds, reports
changed=true, and issues a chmod. -/
theorem reconcileT_mode_run (env : Env) (spec : Spec) (mv : String)
    (k : FKind) (o g : String) (r : Nat) (m : Option String)
    (hmode : spec.mode = some mv) (hstate : spec.state ≠ "absent")
    (hk : (statsF (.present k o g r m)).state = spec.state ∨
      (spec.state = "touch" ∧ k = .file)) :
    ∃ s2 tr2, reconcileT spec env (.present k o g r m) =
      .ok (true, (s2, tr2)) ∧ Call.chmod spec.path mv spec.recurse ∈ tr2 := by
  rcases hk with hk | ⟨ht, rfl⟩
  · rw [reconcileT_no_trans env spec _ hk hstate, attrPhase_real, hmode]
    refine ⟨_, _, rfl, ?_⟩
    simp
  · have hne : (statsF (.present .file o g r m)).state ≠ spec.state := by
      rw [ht]
      cases m <;> simp [statsF, statQuery, fkindF]
    have hres : resolv_states spec (traceOps (realOps env))
        (statsF (.present .file o g r m)) (.present .file o g r m, []) =
        .ok (.present .file o g r m, [Call.touch spec.path]) := by
      simp [resolv_states, ht, statsF, statQuery, fkindF, traceOps, realOps]
    rw [reconcileT_trans_ok env spec _ _ _ hne hres hstate, attrPhase_real,
      hmode]
    refine ⟨_, _, rfl, ?_⟩
    simp

/-! ## Claim theorems -/

/-- C7: `stats` never raises on a missing path: backend-query failure yields
the normal all-absent record, and success yields a record with all four
fields populated, with "regular file" normalized to "file" and replication
numeric. -/
theorem stats_never_fails :
    statsF .absent = ⟨"absent", none, none, none⟩ ∧
    ∀ (k : FKind) (o g : String) (r : Nat) (m : Option String),
      statsF (.present k o g r m) =
        ⟨match k with | .file => "file" | .directory => "directory",
         some o, some g, some r⟩ := by
  refine ⟨rfl, fun k o g r m => ?_⟩
  cases k <;> rfl

/-- C9: evaluating the top level of module_utils/HdfsUtils.py raises
`NotImplementedError`, because the body of `class HdfsContextLib` is a bare
`raise` executed at class-definition time; consequently a normal import of
the file yields no usable namespace (neither `HdfsContextCli` nor
`HdfsCheckMode` is reachable through it). -/
theorem hdfsUtils_import_raises :
    hdfsUtilsImport = .error "NotImplementedError" := rfl

/-- C1 (code evaluated at the failing input): for every spec, every ops
implementation and every backend state, running `main` with check mode on
aborts with a `TypeError` before any backend query or mutation, because
`HdfsCheckMode.__init__` ends with `return (inst)` and Python's constructor
protocol rejects a non-None `__init__` return value.  The claimed dry-run
behavior (mutating primitives as successful no-ops, accurate changed flag)
is therefore never reached. -/
theorem checkMode_constructor_raises {σ : Type} (spec : Spec) (ops : Ops σ)
    (s0 : σ) :
    mainRun spec true ops s0 =
      .error (.typeError "__init__() should return None") := rfl

/-- C10: in `HdfsContextCli.chown`, when both owner and group are non-empty
strings, the target placed in the backend command is the owner string alone
(argv index 3), carrying no group; the group appears — as ":" ++ group —
only when the owner is unset (or empty, i.e. falsy). -/
theorem chown_target_precedence (cmd path o g : String) (ho : o ≠ "")
    (hg : g ≠ "") :
    chownTarget (some o) (some g) = o ∧
    (chownCmd cmd path (some o) (some g) none).get? 3 = some o ∧
    chownTarget none (some g) = ":" ++ g ∧
    chownTarget (some "") (some g) = ":" ++ g := by
  refine ⟨?_, ?_, ?_, ?_⟩ <;>
    simp [chownTarget, chownCmd, pyTruthyS, ho, hg]

theorem chown_target_precedence_witness :
    chownTarget (some "alice") (some "staff") = "alice" ∧
    (chownCmd "/bin/hdfs" "/p" (some "alice") (some "staff") none).get? 3 =
      some "alice" ∧
    chownTarget none (some "staff") = ":" ++ "staff" ∧
    chownTarget (some "") (some "staff") = ":" ++ "staff" :=
  chown_target_precedence "/bin/hdfs" "/p" "alice" "staff" (by decide)
    (by decide)

/-- C4: the state-transition step follows the coverage table: absent→file
fails with the unsupported-creation error; absent→directory calls mkdir with
parent creation; (absent|file)→touch calls touch; file→absent calls remove
non-recursively; directory→absent calls remove recursively; every other
differing pair fails with an error naming both states. -/
theorem resolv_states_table (env : Env) (spec : Spec) (status : Status)
    (s0 : FsState) (hne : status.state ≠ spec.state) :
    (status.state = "absent" → spec.state = "file" →
      resolv_states spec (traceOps (realOps env)) status (s0, []) =
        .error (.failJson
          "no such file, to create new file use state 'touch' instead of 'file'")) ∧
    (status.state = "absent" → spec.state = "directory" →
      ∃ s1, resolv_states spec (traceOps (realOps env)) status (s0, []) =
        .ok (s1, [.mkdir spec.path true])) ∧
    (spec.state = "touch" → status.state = "absent" ∨ status.state = "file" →
      ∃ s1, resolv_states spec (traceOps (realOps env)) status (s0, []) =
        .ok (s1, [.touch spec.path])) ∧
    (spec.state = "absent" → status.state = "file" →
      ∃ s1, resolv_states spec (traceOps (realOps env)) status (s0, []) =
        .ok (s1, [.remove spec.path false])) ∧
    (spec.state = "absent" → status.state = "directory" →
      ∃ s1, resolv_states spec (traceOps (realOps env)) status (s0, []) =
        .ok (s1, [.remove spec.path true])) ∧
    (¬(status.state = "absent" ∧ spec.state = "file") →
     ¬(status.state = "absent" ∧ spec.state = "directory") →
     ¬(spec.state = "touch" ∧ (status.state = "absent" ∨ status.state = "file")) →
     ¬(spec.state = "absent" ∧ (status.state = "file" ∨ status.state = "directory")) →
      resolv_states spec (traceOps (realOps env)) status (s0, []) =
        .error (.failJson ("unsupported state convert '" ++ status.state ++
          "' -> '" ++ spec.state ++ "'"))) := by
  refine ⟨?_, ?_, ?_, ?_, ?_, ?_⟩
  · intro ho hn; simp [resolv_states, ho, hn]
  · intro ho hn
    refine ⟨(realOps env).mkdir spec.path true s0, ?_⟩
    simp [resolv_states, traceOps, ho, hn]
  · intro hn ho
    rcases ho with ho | ho
    · refine ⟨(realOps env).touch spec.path s0, ?_⟩
      simp [resolv_states, traceOps, ho, hn, hne.symm]
    · refine ⟨(realOps env).touch spec.path s0, ?_⟩
      simp [resolv_states, traceOps, ho, hn]
  · intro hn ho
    refine ⟨(realOps env).remove spec.path false s0, ?_⟩
    simp [resolv_states, traceOps, ho, hn]
  · intro hn ho
    refine ⟨(realOps env).remove spec.path true s0, ?_⟩
    simp [resolv_states, traceOps, ho, hn]
  · intro h1 h2 h3 h4
    show (if status.state = "absent" ∧ spec.state = "file" then _
      else if status.state = "absent" ∧ spec.state = "directory" then _
      else if spec.state = "touch" ∧
          (status.state = "absent" ∨ status.state = "file") then _
      else if spec.state = "absent" ∧ status.state = "file" then _
      else if spec.state = "absent" ∧ status.state = "directory" then _
      else _) = _
    rw [if_neg h1, if_neg h2, if_neg h3,
      if_neg (fun hx => h4 ⟨hx.1, Or.inl hx.2⟩),
      if_neg (fun hx => h4 ⟨hx.1, Or.inr hx.2⟩)]

theorem resolv_states_table_witness :
    ∃ s1, resolv_states
        ⟨"/tmp/myfolder", "directory", none, none, none, none, none⟩
        (traceOps (realOps ⟨"hdfs", "supergroup", 3⟩))
        ⟨"absent", none, none, none⟩ (.absent, []) =
      .ok (s1, [.mkdir "/tmp/myfolder" true]) :=
  (resolv_states_table ⟨"hdfs", "supergroup", 3⟩
      ⟨"/tmp/myfolder", "directory", none, none, none, none, none⟩
      ⟨"absent", none, none, none⟩ .absent (by decide)).2.1 rfl rfl

/-- C8: with `state=absent` the run exits right after the state-transition
step with the accumulated changed flag (false when the path was already
absent), and no attribute operation — chown, setrep or chmod — is ever
issued, even when owner, group, replication and mode are all set. -/
theorem absent_skips_attributes (env : Env) (spec : Spec) (s0 : FsState)
    (h : spec.state = "absent") :
    ∃ s1 tr, reconcileT spec env s0 =
        .ok ((fsKind s0 != "absent"), (s1, tr)) ∧
      tr.all (fun c => !c.isAttr) = true := by
  cases s0 with
  | absent =>
      refine ⟨.absent, [], ?_, rfl⟩
      simp [reconcileT, reconcile, traceOps, realOps, statsF, statQuery,
        fsKind, h]
  | present k o g r m =>
      cases k
      · refine ⟨.absent, [.remove spec.path false], ?_, rfl⟩
        simp [reconcileT, reconcile, resolv_states, traceOps, realOps,
          statsF, statQuery, fkindF, fsKind, h, Except.map]
      · refine ⟨.absent, [.remove spec.path true], ?_, rfl⟩
        simp [reconcileT, reconcile, resolv_states, traceOps, realOps,
          statsF, statQuery, fkindF, fsKind, h, Except.map]

theorem absent_skips_attributes_witness :
    ∃ s1 tr, reconcileT
        ⟨"/d", "absent", some "o", some "g", some "0700", some 2, some true⟩
        ⟨"hdfs", "supergroup", 3⟩ (.present .directory "a" "b" 1 none) =
      .ok ((fsKind (.present .directory "a" "b" 1 none) != "absent"),
        (s1, tr)) ∧ tr.all (fun c => !c.isAttr) = true :=
  absent_skips_attributes ⟨"hdfs", "supergroup", 3⟩
    ⟨"/d", "absent", some "o", some "g", some "0700", some 2, some true⟩
    (.present .directory "a" "b" 1 none) rfl

/-- C2 counterexample: a run in which both owner and group differ from the
current status issues two separate chown calls — one carrying only the
owner, one carrying only the group — not the single combined chown call the
claim asserts. -/
theorem owner_group_single_call_cex :
    reconcileT ⟨"/p", "file", some "alice", some "staff", none, none, none⟩
        ⟨"hdfs", "supergroup", 3⟩ (.present .file "bob" "users" 3 none) =
      .ok (true, (.present .file "alice" "staff" 3 none,
        [.chown "/p" (some "alice") none none,
         .chown "/p" none (some "staff") none])) ∧
    ([Call.chown "/p" (some "alice") none none,
      Call.chown "/p" none (some "staff") none].filter Call.isChown).length
      = 2 := by
  exact ⟨by rfl, by rfl⟩

/-- C3 counterexample: with `mode` set (state=file, not touch), the second
of two identical consecutive runs — started from the first run's resulting
backend state — still reports changed=true, contradicting the claimed
changed=false on the second call. -/
theorem idempotence_cex_mode :
    reconcileT ⟨"/f", "file", none, none, some "0755", none, none⟩
        ⟨"hdfs", "supergroup", 3⟩ (.present .file "a" "b" 1 none) =
      .ok (true, (.present .file "a" "b" 1 (some "0755"),
        [.chmod "/f" "0755" none])) ∧
    reconcileT ⟨"/f", "file", none, none, some "0755", none, none⟩
        ⟨"hdfs", "supergroup", 3⟩ (.present .file "a" "b" 1 (some "0755")) =
      .ok (true, (.present .file "a" "b" 1 (some "0755"),
        [.chmod "/f" "0755" none])) := by
  exact ⟨by rfl, by rfl⟩

/-- C2 amended: for every successful run with `state ≠ absent`, the chown
calls issued are exactly one separate call per to-apply attribute — one
carrying only the owner when owner is to apply, one carrying only the group
when group is to apply (each honoring recurse) — never a single combined
call carrying both. -/
theorem owner_group_separate_calls (env : Env) (spec : Spec) (s0 : FsState)
    (c : Bool) (s1 : FsState) (tr : List Call)
    (hstate : spec.state ≠ "absent")
    (hrun : reconcileT spec env s0 = .ok (c, (s1, tr))) :
    tr.filter Call.isChown =
      (if should_modify (pyStrS (statsF s0).owner) spec.owner spec.state
       then [Call.chown spec.path spec.owner none spec.recurse] else []) ++
      (if should_modify (pyStrS (statsF s0).group) spec.group spec.state
       then [Call.chown spec.path none spec.group spec.recurse] else []) := by
  by_cases h : (statsF s0).state = spec.state
  · rw [reconcileT_no_trans env spec s0 h hstate] at hrun
    obtain ⟨k, o0, g0, r0, m0, rfl⟩ :
        ∃ k o0 g0 r0 m0, s0 = FsState.present k o0 g0 r0 m0 := by
      cases s0 with
      | absent => exact absurd h.symm hstate
      | present k o0 g0 r0 m0 => exact ⟨k, o0, g0, r0, m0, rfl⟩
    rw [attrPhase_real] at hrun
    simp only [Except.ok.injEq, Prod.mk.injEq] at hrun
    obtain ⟨hc, hs, htr⟩ := hrun
    subst htr
    rcases hmo : spec.mode with _ | mv <;>
      by_cases hO : should_modify
        (pyStrS (statsF (FsState.present k o0 g0 r0 m0)).owner) spec.owner
        spec.state <;>
      by_cases hG : should_modify
        (pyStrS (statsF (FsState.present k o0 g0 r0 m0)).group) spec.group
        spec.state <;>
      by_cases hR : should_modify
        (pyStrN (statsF (FsState.present k o0 g0 r0 m0)).replication)
        (spec.replication.map (fun n => toString n)) spec.state <;>
      simp [hmo, hO, hG, hR, List.filter_append, Call.isChown]
  · rcases hres : resolv_states spec (traceOps (realOps env)) (statsF s0)
        (s0, []) with e | ⟨s1', tr'⟩
    · rw [reconcileT_trans_err env spec s0 e h hres] at hrun
      exact absurd hrun (by simp)
    · rw [reconcileT_trans_ok env spec s0 s1' tr' h hres hstate] at hrun
      rcases resolv_states_ok_inv _ _ _ _ _ hres with
        ⟨ha, hd, hmk⟩ | ⟨ht, hor, htc⟩ | ⟨ha2, _, _⟩ | ⟨ha2, _, _⟩
      · obtain rfl := state_absent_inv s0 ha
        simp only [traceOps, realOps, List.nil_append] at hmk
        obtain ⟨hs1', htr'⟩ := Prod.mk.injEq .. |>.mp hmk
        subst hs1'; subst htr'
        rw [attrPhase_real] at hrun
        simp only [Except.ok.injEq, Prod.mk.injEq] at hrun
        obtain ⟨hc, hs, htr⟩ := hrun
        subst htr
        rcases hmo : spec.mode with _ | mv <;>
          by_cases hO : should_modify (pyStrS (statsF FsState.absent).owner)
            spec.owner spec.state <;>
          by_cases hG : should_modify (pyStrS (statsF FsState.absent).group)
            spec.group spec.state <;>
          by_cases hR : should_modify
            (pyStrN (statsF FsState.absent).replication)
            (spec.replication.map (fun n => toString n)) spec.state <;>
          simp [hmo, hO, hG, hR, List.filter_append, Call.isChown]
      · rcases hor with hor | hor
        · obtain rfl := state_absent_inv s0 hor
          simp only [traceOps, realOps, List.nil_append] at htc
          obtain ⟨hs1', htr'⟩ := Prod.mk.injEq .. |>.mp htc
          subst hs1'; subst htr'
          rw [attrPhase_real] at hrun
          simp only [Except.ok.injEq, Prod.mk.injEq] at hrun
          obtain ⟨hc, hs, htr⟩ := hrun
          subst htr
          rcases hmo : spec.mode with _ | mv <;>
            by_cases hO : should_modify (pyStrS (statsF FsState.absent).owner)
              spec.owner spec.state <;>
            by_cases hG : should_modify (pyStrS (statsF FsState.absent).group)
              spec.group spec.state <;>
            by_cases hR : should_modify
              (pyStrN (statsF FsState.absent).replication)
              (spec.replication.map (fun n => toString n)) spec.state <;>
            simp [hmo, hO, hG, hR, List.filter_append, Call.isChown]
        · obtain ⟨o0, g0, r0, m0, rfl⟩ := state_file_inv s0 hor
          simp only [traceOps, realOps, List.nil_append] at htc
          obtain ⟨hs1', htr'⟩ := Prod.mk.injEq .. |>.mp htc
          subst hs1'; subst htr'
          rw [attrPhase_real] at hrun
          simp only [Except.ok.injEq, Prod.mk.injEq] at hrun
          obtain ⟨hc, hs, htr⟩ := hrun
          subst htr
          rcases hmo : spec.mode with _ | mv <;>
            by_cases hO : should_modify
              (pyStrS (statsF (FsState.present .file o0 g0 r0 m0)).owner)
              spec.owner spec.state <;>
            by_cases hG : should_modify
              (pyStrS (statsF (FsState.present .file o0 g0 r0 m0)).group)
              spec.group spec.state <;>
            by_cases hR : should_modify
              (pyStrN (statsF (FsState.present .file o0 g0 r0 m0)).replication)
              (spec.replication.map (fun n => toString n)) spec.state <;>
            simp [hmo, hO, hG, hR, List.filter_append, Call.isChown]
      · exact absurd ha2 hstate
      · exact absurd ha2 hstate

/-- C5: with state=touch, every explicitly set attribute (owner, group,
replication) is treated as to-apply regardless of the current status, so a
repeated identical touch invocation re-issues the same attribute calls and
reports changed=true again with no backend drift. -/
theorem touch_reapplies_attributes (env : Env) (p o g : String) (r : Nat)
    (rec : Option Bool) (s0 : FsState)
    (h0 : fsKind s0 = "absent" ∨ fsKind s0 = "file") :
    ∃ s1,
      reconcileT ⟨p, "touch", some o, some g, none, some r, rec⟩ env s0 =
        .ok (true, (s1,
          [.touch p, .chown p (some o) none rec, .chown p none (some g) rec,
           .setrep p r])) ∧
      reconcileT ⟨p, "touch", some o, some g, none, some r, rec⟩ env s1 =
        .ok (true, (s1,
          [.touch p, .chown p (some o) none rec, .chown p none (some g) rec,
           .setrep p r])) := by
  have hshape : s0 = FsState.absent ∨
      ∃ o0 g0 r0 m0, s0 = FsState.present .file o0 g0 r0 m0 := by
    rcases h0 with h0 | h0
    · left
      cases s0 with
      | absent => rfl
      | present k o0 g0 r0 m0 => cases k <;> simp [fsKind] at h0
    · right
      cases s0 with
      | absent => simp [fsKind] at h0
      | present k o0 g0 r0 m0 =>
          cases k
          · exact ⟨o0, g0, r0, m0, rfl⟩
          · simp [fsKind] at h0
  rcases hshape with rfl | ⟨o0, g0, r0, m0, rfl⟩
  · refine ⟨.present .file o g r none, ?_, ?_⟩ <;>
      simp [reconcileT, reconcile, resolv_states, tOps_stats, statsF,
        statQuery, fkindF, attrPhase, ownerStep, groupStep, replStep,
        modeStep, should_modify, traceOps, realOps, Except.map]
  · refine ⟨.present .file o g r m0, ?_, ?_⟩ <;>
      simp [reconcileT, reconcile, resolv_states, tOps_stats, statsF,
        statQuery, fkindF, attrPhase, ownerStep, groupStep, replStep,
        modeStep, should_modify, traceOps, realOps, Except.map]

theorem touch_reapplies_attributes_witness :
    ∃ s1,
      reconcileT ⟨"/t", "touch", some "o", some "g", none, some 2, none⟩
          ⟨"hdfs", "supergroup", 3⟩ .absent =
        .ok (true, (s1,
          [.touch "/t", .chown "/t" (some "o") none none,
           .chown "/t" none (some "g") none, .setrep "/t" 2])) ∧
      reconcileT ⟨"/t", "touch", some "o", some "g", none, some 2, none⟩
          ⟨"hdfs", "supergroup", 3⟩ s1 =
        .ok (true, (s1,
          [.touch "/t", .chown "/t" (some "o") none none,
           .chown "/t" none (some "g") none, .setrep "/t" 2])) :=
  touch_reapplies_attributes ⟨"hdfs", "supergroup", 3⟩ "/t" "o" "g" 2 none
    .absent (Or.inl rfl)

/-- C6: whenever `mode` is set (and state is not absent), a successful run
reports changed=true and issues a chmod honoring recurse, with no comparison
against the current mode — and an immediately repeated identical run against
the resulting backend state again reports changed=true and issues the chmod
again. -/
theorem mode_always_changed (env : Env) (spec : Spec) (s0 : FsState)
    (mv : String) (c : Bool) (s1 : FsState) (tr : List Call)
    (hmode : spec.mode = some mv) (hstate : spec.state ≠ "absent")
    (hrun : reconcileT spec env s0 = .ok (c, (s1, tr))) :
    c = true ∧ Call.chmod spec.path mv spec.recurse ∈ tr ∧
    ∃ s2 tr2, reconcileT spec env s1 = .ok (true, (s2, tr2)) ∧
      Call.chmod spec.path mv spec.recurse ∈ tr2 := by
  obtain ⟨chg0, k1, o1, g1, r1, m1, tr0, heq, hk, _⟩ :=
    run_ok_master env spec s0 c s1 tr hstate hrun
  rw [attrPhase_real, hmode] at heq
  simp only [Prod.mk.injEq] at heq
  obtain ⟨hc, hs, htr⟩ := heq
  refine ⟨hc.symm, ?_, ?_⟩
  · rw [← htr]; simp
  · subst hs
    apply reconcileT_mode_run env spec mv k1 _ _ _ _ hmode hstate
    rcases hk with hk | ⟨ht, hkf⟩
    · left
      rw [statsF_state_kind k1 _ _ _ _ o1 g1 r1 m1]
      exact hk
    · exact .inr ⟨ht, hkf⟩

theorem mode_always_changed_witness :
    true = true ∧
    Call.chmod "/f" "0755" none ∈ [Call.chmod "/f" "0755" none] ∧
    ∃ s2 tr2, reconcileT ⟨"/f", "file", none, none, some "0755", none, none⟩
        ⟨"hdfs", "supergroup", 3⟩ (.present .file "a" "b" 1 (some "0755")) =
      .ok (true, (s2, tr2)) ∧ Call.chmod "/f" "0755" none ∈ tr2 :=
  mode_always_changed ⟨"hdfs", "supergroup", 3⟩
    ⟨"/f", "file", none, none, some "0755", none, none⟩
    (.present .file "a" "b" 1 none) "0755" true
    (.present .file "a" "b" 1 (some "0755")) [Call.chmod "/f" "0755" none]
    rfl (by decide) (by rfl)

/-- C3 amended: for state ≠ touch, a second identical run from the first
run's resulting backend state reports changed=false (and issues no calls),
provided mode is unset (an explicit mode makes every run report
changed=true) and no requested owner/group value is the literal string
"None" (which `str()`-collides with an absent status field). -/
theorem reconcile_idempotent (env : Env) (spec : Spec) (s0 : FsState)
    (c : Bool) (s1 : FsState) (tr : List Call)
    (htouch : spec.state ≠ "touch") (hmode : spec.mode = none)
    (hoN : spec.owner ≠ some "None") (hgN : spec.group ≠ some "None")
    (hrun : reconcileT spec env s0 = .ok (c, (s1, tr))) :
    reconcileT spec env s1 = .ok (false, (s1, [])) := by
  by_cases habs : spec.state = "absent"
  · by_cases h : (statsF s0).state = spec.state
    · rw [reconcileT_no_trans_absent env spec s0 h habs] at hrun
      simp only [Except.ok.injEq, Prod.mk.injEq] at hrun
      obtain ⟨hc, hs, htr⟩ := hrun
      subst hs
      exact reconcileT_no_trans_absent env spec s0 h habs
    · rcases hres : resolv_states spec (traceOps (realOps env)) (statsF s0)
          (s0, []) with e | ⟨s1', tr'⟩
      · rw [reconcileT_trans_err env spec s0 e h hres] at hrun
        exact absurd hrun (by simp)
      · rw [reconcileT_trans_ok_absent env spec s0 s1' tr' h hres habs] at hrun
        simp only [Except.ok.injEq, Prod.mk.injEq] at hrun
        obtain ⟨hc, hs, htr⟩ := hrun
        subst hs
        rcases resolv_states_ok_inv _ _ _ _ _ hres with
          ⟨_, hd, _⟩ | ⟨ht, _, _⟩ | ⟨_, _, hrm⟩ | ⟨_, _, hrm⟩
        · rw [habs] at hd; exact absurd hd (by decide)
        · exact absurd ht htouch
        · simp only [traceOps, realOps] at hrm
          obtain ⟨hs1', _⟩ := Prod.mk.injEq .. |>.mp hrm
          subst hs1'
          exact reconcileT_no_trans_absent env spec .absent
            (by rw [habs]; rfl) habs
        · simp only [traceOps, realOps] at hrm
          obtain ⟨hs1', _⟩ := Prod.mk.injEq .. |>.mp hrm
          subst hs1'
          exact reconcileT_no_trans_absent env spec .absent
            (by rw [habs]; rfl) habs
  · obtain ⟨chg0, k1, o1, g1, r1, m1, tr0, heq, hk, hst⟩ :=
      run_ok_master env spec s0 c s1 tr habs hrun
    rw [attrPhase_real, hmode] at heq
    simp only [Prod.mk.injEq] at heq
    obtain ⟨hc, hs, htr⟩ := heq
    rcases hk with hk | ⟨ht, _⟩
    · have hst2 :
          (statsF (.present k1 o1 g1 r1 m1)).state = spec.state := hk
      have hOgood : (statsF s0).owner = some o1 ∨
          ((statsF s0).owner = none ∧ spec.owner ≠ some "None") := by
        rcases hst with ⟨hso, _, _⟩ | hstA
        · exact .inl hso
        · exact .inr ⟨by rw [hstA], hoN⟩
      have hGgood : (statsF s0).group = some g1 ∨
          ((statsF s0).group = none ∧ spec.group ≠ some "None") := by
        rcases hst with ⟨_, hsg, _⟩ | hstA
        · exact .inl hsg
        · exact .inr ⟨by rw [hstA], hgN⟩
      have hRgood : (statsF s0).replication = some r1 ∨
          (statsF s0).replication = none := by
        rcases hst with ⟨_, _, hsr⟩ | hstA
        · exact .inl hsr
        · exact .inr (by rw [hstA])
      subst hs
      exact reconcileT_settled env spec k1 _ _ _ _
        (by rw [statsF_state_kind k1 _ _ _ _ o1 g1 r1 m1]; exact hk)
        habs hmode
        (settled_field_s (statsF s0).owner spec.owner spec.state o1 htouch
          hOgood)
        (settled_field_s (statsF s0).group spec.group spec.state g1 htouch
          hGgood)
        (settled_field_n (statsF s0).replication spec.replication spec.state
          r1 htouch hRgood)
    · exact absurd ht htouch

theorem reconcile_idempotent_witness :
    reconcileT ⟨"/w", "directory", some "u", some "grp", none, some 2, none⟩
        ⟨"hdfs", "supergroup", 3⟩ (.present .directory "u" "grp" 2 none) =
      .ok (false, (.present .directory "u" "grp" 2 none, [])) :=
  reconcile_idempotent ⟨"hdfs", "supergroup", 3⟩
    ⟨"/w", "directory", some "u", some "grp", none, some 2, none⟩
    .absent true (.present .directory "u" "grp" 2 none)
    [.mkdir "/w" true, .chown "/w" (some "u") none none,
     .chown "/w" none (some "grp") none, .setrep "/w" 2]
    (by decide) rfl (by decide) (by decide) (by rfl)

theorem owner_group_separate_calls_witness :
    [Call.chown "/p" (some "alice") none none,
     Call.chown "/p" none (some "staff") none].filter Call.isChown =
      (if should_modify
          (pyStrS (statsF (.present .file "bob" "users" 3 none)).owner)
          (some "alice") "file"
       then [Call.chown "/p" (some "alice") none none] else []) ++
      (if should_modify
          (pyStrS (statsF (.present .file "bob" "users" 3 none)).group)
          (some "staff") "file"
       then [Call.chown "/p" none (some "staff") none] else []) :=
  owner_group_separate_calls ⟨"hdfs", "supergroup", 3⟩
    ⟨"/p", "file", some "alice", some "staff", none, none, none⟩
    (.present .file "bob" "users" 3 none) true
    (.present .file "alice" "staff" 3 none)
    [Call.chown "/p" (some "alice") none none,
     Call.chown "/p" none (some "staff") none]
    (by decide) (by rfl)

end HdfsFile
